import Mathlib

/-!
Verification of the keeper-analysis transform of the `lol-keepers` repository.

The development shallowly embeds the pipeline of `create_keeper_analysis_dataframe`
(shared, up to variable names, by `src/app.py` and `src/api/index.py`), the keeper
recommendation selector `api_keeper_recommendations` of `src/api/index.py`, and the
CLI keeper-status mutator `update_keeper` of `src/app.py`.

Conventions of the embedding:
- pandas DataFrames become `List` of record structures, one structure per row;
  column names starting with a digit (for example `2024_manager`) become Lean
  field names with the year suffixed (`manager_2024`).
- Missing values (JSON keys read with `.get`, unmatched columns after a left
  join, NaN cells) become `Option` fields with `none` for the missing value.
- Python string operations `str.strip`, `str.lower`, `str.startswith` and the
  substring test `in` are modelled character-list-wise (`pyStrip`, `pyLower`,
  `startsWithStr`, `containsStr`); the data of this application is ASCII, where
  these agree with Python semantics.
- `pandas.merge(..., how='left')` keeps the left rows in order and emits one
  output row per matching right row (in right order), or a single row with
  null right fields when nothing matches (`leftJoin`).
- `DataFrame.sort_values` is embedded as a stable sort with the NaN-last,
  ascending key order that pandas uses; pandas' default quicksort gives no
  guarantee on the order of tied rows, so the embedding fixes the stable
  determinisation (no claim below depends on the order of tied rows).
- `DataFrame.nlargest(n, col)` (default `keep='first'`) drops rows whose key is
  NaN and then returns the n largest rows by descending key, ties resolved in
  favour of earlier rows: the embedding decorates rows with their position,
  drops undefined keys, stable-sorts by (key descending, position ascending)
  and takes the first n.
-/

namespace LolKeepers

/-- Initial-segment test on character lists: `leadChars needle hay` is true when
`needle` is an initial segment of `hay`. Character-list version of Python
`str.startswith`. -/
def leadChars : List Char → List Char → Bool
  | [], _ => true
  | _ :: _, [] => false
  | c :: cs, d :: ds => c == d && leadChars cs ds

/-- Contiguous-occurrence test on character lists: `hasSubChars needle hay` is
true when `needle` occurs contiguously inside `hay`. Character-list version of
the Python `in` operator on strings. -/
def hasSubChars (needle : List Char) : List Char → Bool
  | [] => needle.isEmpty
  | d :: ds => leadChars needle (d :: ds) || hasSubChars needle ds

/-- Model of Python `str.lower` (ASCII data). -/
def pyLower (s : String) : String := ⟨s.data.map Char.toLower⟩

/-- Model of Python `str.strip`: drop leading and trailing whitespace. -/
def pyStrip (s : String) : String :=
  ⟨(((s.data.dropWhile Char.isWhitespace).reverse).dropWhile Char.isWhitespace).reverse⟩

/-- Model of Python `s.startswith(pre)`. -/
def startsWithStr (s pre : String) : Bool := leadChars pre.data s.data

/-- Model of Python `needle in hay` on strings. -/
def containsStr (hay needle : String) : Bool := hasSubChars needle.data hay.data

/-- Entry of `draft_data['draft_info']`. -/
structure DraftInfo where
  total_teams : Nat
  total_rounds : Nat
  draft_type : String
deriving DecidableEq

/-- Entry of `draft_data['teams']`. The presentation-only fields `rank`,
`rating` and `level` are only printed by CLI commands and play no role in any
embedded operation, so they are omitted. -/
structure Team where
  team_id : Nat
  team_name : String
  manager : String
deriving DecidableEq

/-- Entry of `draft_data['draft_picks']`. The fields read with `.get` in the
source (`round`, `overall_pick`, `2025_keeper_eligible`, `waiver_pickup`) are
`Option`-valued here, `none` standing for an absent key; the source applies the
defaults `True` and `False` to the last two when building draft records. -/
structure DraftPick where
  player_name : String
  team_id : Nat
  drafting_team : String
  round : Option Nat
  overall_pick : Option Nat
  keeper_status : Bool
  keeper_eligible_2025 : Option Bool
  waiver_pickup : Option Bool
deriving DecidableEq

/-- The full draft-results source (`data/draft_results.json`). -/
structure DraftData where
  draft_info : DraftInfo
  teams : List Team
  draft_picks : List DraftPick
deriving DecidableEq

/-- Row of the rankings source (`data/fantasy_pros.csv`) after the renaming
`PLAYER NAME -> player_name`, `RK -> 2025_draft_rank`, `POS -> 2025_position_rank`. -/
structure RankingRow where
  player_name : String
  rank : Nat
  position_rank : String
deriving DecidableEq

/-- Row of `draft_df` as built from a draft pick. -/
structure DraftRecord where
  player_name : String
  manager_2024 : String
  draft_round_2024 : Option Nat
  overall_pick_2024 : Option Nat
  keeper_status_2024 : Bool
  keeper_eligible_2025 : Bool
  waiver_pickup : Bool
deriving DecidableEq

/-- Row of `merged_df` right after the left join: the draft fields plus the
(possibly missing) ranking fields. -/
structure MergedRecord where
  base : DraftRecord
  draft_rank_2025 : Option Nat
  position_rank_2025 : Option String
deriving DecidableEq

/-- Row of the transform's output (`result_df`), with the eleven final columns. -/
structure KeeperRecord where
  player_name : String
  manager_2024 : String
  draft_round_2024 : Option Nat
  overall_pick_2024 : Option Nat
  keeper_status_2024 : Bool
  keeper_eligible_2025 : Bool
  draft_rank_2025 : Option Nat
  position_rank_2025 : Option String
  projected_round_2025 : Option Nat
  keeper_round_2025 : Option Nat
  waiver_pickup : Bool
deriving DecidableEq

/-- Lookup `team_to_manager.get(name, name)`: the dictionary is built by
iterating over the teams, a later team with the same name overwriting an
earlier one, hence the lookup finds the last matching team; an absent key
falls back to the raw team-name string. -/
def managerFor (teams : List Team) (name : String) : String :=
  match teams.reverse.find? (fun t => t.team_name == name) with
  | some t => t.manager
  | none => name

/-- One entry of `draft_records` as built from a draft pick, with the `.get`
defaults `True` for `2025_keeper_eligible` and `False` for `waiver_pickup`. -/
def toDraftRecord (teams : List Team) (p : DraftPick) : DraftRecord :=
  { player_name := p.player_name
    manager_2024 := managerFor teams p.drafting_team
    draft_round_2024 := p.round
    overall_pick_2024 := p.overall_pick
    keeper_status_2024 := p.keeper_status
    keeper_eligible_2025 := p.keeper_eligible_2025.getD true
    waiver_pickup := p.waiver_pickup.getD false }

/-- The ranking rows matching a draft record: equality of the whitespace-trimmed
player names (`player_name_clean`). -/
def matchesFor (fantasy : List RankingRow) (d : DraftRecord) : List RankingRow :=
  fantasy.filter (fun r => pyStrip r.player_name == pyStrip d.player_name)

/-- The rows the left join emits for one draft record: one output row per
matching ranking row (in rankings order), or one row with null ranking fields
when no ranking row matches. -/
def joinOne (fantasy : List RankingRow) (d : DraftRecord) : List MergedRecord :=
  match matchesFor fantasy d with
  | [] => [{ base := d, draft_rank_2025 := none, position_rank_2025 := none }]
  | ms => ms.map (fun r =>
      { base := d, draft_rank_2025 := some r.rank, position_rank_2025 := some r.position_rank })

/-- The left join `pd.merge(draft_df, fantasy_df[...], on='player_name_clean',
how='left')`: the draft rows in order, each contributing its `joinOne` rows. -/
def leftJoin (draft : List DraftRecord) (fantasy : List RankingRow) : List MergedRecord :=
  draft.flatMap (joinOne fantasy)

/-- Column `2025_projected_draft_round`: `math.ceil(x / 12)` for a present rank,
else null. For a natural number rank the float computation of the source is
exact and equals `(rank + 11) / 12` in natural-number division. -/
def projectedRound2025 : Option Nat → Option Nat
  | some rank => some ((rank + 11) / 12)
  | none => none

/-- Function `calculate_keeper_round` (`calculate_keeper_round_local` in
`src/api/index.py`): waiver pickups get round 5; otherwise a present 2024 round
gives `max(1, round - 1)`; otherwise null. -/
def calculate_keeper_round (waiver_pickup : Bool) (draft_round_2024 : Option Nat) : Option Nat :=
  if waiver_pickup then some 5
  else
    match draft_round_2024 with
    | some r => some (max 1 (r - 1))
    | none => none

/-- Assemble a full output row from a merged row, computing the two derived
columns. -/
def toKeeperRecord (m : MergedRecord) : KeeperRecord :=
  { player_name := m.base.player_name
    manager_2024 := m.base.manager_2024
    draft_round_2024 := m.base.draft_round_2024
    overall_pick_2024 := m.base.overall_pick_2024
    keeper_status_2024 := m.base.keeper_status_2024
    keeper_eligible_2025 := m.base.keeper_eligible_2025
    draft_rank_2025 := m.draft_rank_2025
    position_rank_2025 := m.position_rank_2025
    projected_round_2025 := projectedRound2025 m.draft_rank_2025
    keeper_round_2025 := calculate_keeper_round m.base.waiver_pickup m.base.draft_round_2024
    waiver_pickup := m.base.waiver_pickup }

/-- Row filter for kickers and defenses: the source computes
`astype(str).str.startswith(('K', 'DST'))` and keeps the rows where this is
false; a NaN cell stringifies to `"nan"`, which starts with neither, so a row
with a missing position rank is kept by this filter. -/
def keepPositionRank : Option String → Bool
  | some s => !(startsWithStr s "K" || startsWithStr s "DST")
  | none => true

/-- Sort key order of `sort_values('2024_overall_pick')`: ascending with
missing values placed last (pandas `na_position='last'` default). -/
def pickOrd : Option Nat → Option Nat → Prop
  | some x, some y => x ≤ y
  | some _, none => True
  | none, some _ => False
  | none, none => True

instance : (a b : Option Nat) → Decidable (pickOrd a b)
  | some x, some y => inferInstanceAs (Decidable (x ≤ y))
  | some _, none => .isTrue trivial
  | none, some _ => .isFalse (fun h => h)
  | none, none => .isTrue trivial

/-- Row order of the final sort of the transform. -/
def rowPickLe (a b : KeeperRecord) : Prop :=
  pickOrd a.overall_pick_2024 b.overall_pick_2024

instance : DecidableRel rowPickLe := fun a b =>
  inferInstanceAs (Decidable (pickOrd a.overall_pick_2024 b.overall_pick_2024))

instance : IsTotal KeeperRecord rowPickLe :=
  ⟨fun a b => by
    unfold rowPickLe
    generalize a.overall_pick_2024 = oa
    generalize b.overall_pick_2024 = ob
    cases oa <;> cases ob <;> simp [pickOrd]
    omega⟩

instance : IsTrans KeeperRecord rowPickLe :=
  ⟨fun a b c => by
    unfold rowPickLe
    generalize a.overall_pick_2024 = oa
    generalize b.overall_pick_2024 = ob
    generalize c.overall_pick_2024 = oc
    intro hab hbc
    cases oa <;> cases ob <;> cases oc <;> simp_all [pickOrd]
    omega⟩

/-- The transform `create_keeper_analysis_dataframe`, identical in
`src/app.py` and `src/api/index.py`: build draft records, left-join the
rankings, derive the projected round and the keeper round, filter out
kicker/defense rows and rows with no 2025 rank, and sort by 2024 overall pick. -/
def create_keeper_analysis_dataframe (data : DraftData) (fantasy : List RankingRow) :
    List KeeperRecord :=
  let draft_df := data.draft_picks.map (toDraftRecord data.teams)
  let merged_df := leftJoin draft_df fantasy
  let rows := merged_df.map toKeeperRecord
  let rows1 := rows.filter (fun r => keepPositionRank r.position_rank_2025)
  let rows2 := rows1.filter (fun r => r.draft_rank_2025.isSome)
  List.insertionSort rowPickLe rows2

/-- Column `keeper_value` of the recommendation selector:
`2025_projected_draft_round - 2025_keeper_round`, NaN-propagating. -/
def keeper_value (r : KeeperRecord) : Option Int :=
  match r.projected_round_2025, r.keeper_round_2025 with
  | some p, some k => some ((p : Int) - (k : Int))
  | _, _ => none

/-- Totalised keeper value used only to express sort orders; every use below is
guarded so that the `none` default is never reached. -/
def keeperValueD (r : KeeperRecord) : Int := (keeper_value r).getD 0

/-- Filter of `api_keeper_recommendations`: the rows of the given manager whose
`2025_keeper_eligible` is true. -/
def eligibleRows (df : List KeeperRecord) (manager : String) : List KeeperRecord :=
  df.filter (fun r => r.manager_2024 == manager && r.keeper_eligible_2025)

/-- Order used by the embedding of `nlargest(5, 'keeper_value')` on rows
decorated with their position: strictly larger value first, ties resolved in
favour of the smaller (earlier) position. -/
def nlRel (p q : Nat × KeeperRecord) : Prop :=
  keeperValueD q.2 < keeperValueD p.2 ∨
    (keeperValueD p.2 = keeperValueD q.2 ∧ p.1 ≤ q.1)

instance : DecidableRel nlRel := fun p q =>
  inferInstanceAs (Decidable (keeperValueD q.2 < keeperValueD p.2 ∨
    (keeperValueD p.2 = keeperValueD q.2 ∧ p.1 ≤ q.1)))

/-- Embedding of `manager_df.nlargest(5, 'keeper_value')` with pandas'
default `keep='first'`: decorate the rows with their position, drop the rows
whose keeper value is undefined (pandas drops NaN keys), stable-sort by
descending value with ties in favour of earlier positions, take the first
`n` rows and forget the decoration. -/
def nlargestByValue (n : Nat) (rows : List KeeperRecord) : List KeeperRecord :=
  let decorated := rows.enum.filter (fun q => (keeper_value q.2).isSome)
  ((List.insertionSort nlRel decorated).take n).map Prod.snd

/-- Result of the `/api/keeper-recommendations/<manager>` endpoint, reduced to
what distinguishes its outcomes: the 404 `status: 'error'` body for missing
data, or a `status: 'success'` body carrying the manager and the
recommendation rows. -/
inductive RecResult where
  | dataUnavailable : RecResult
  | success : String → List KeeperRecord → RecResult
deriving DecidableEq

/-- The endpoint `api_keeper_recommendations` of `src/api/index.py`: an empty
dataframe (which is also what the transform returns on failure) yields the
data-unavailable error; an empty manager filter yields a success with an empty
recommendation list; otherwise the top five rows by keeper value. -/
def api_keeper_recommendations (df : List KeeperRecord) (manager : String) : RecResult :=
  if df.isEmpty then .dataUnavailable
  else
    let manager_df := eligibleRows df manager
    if manager_df.isEmpty then .success manager []
    else .success manager (nlargestByValue 5 manager_df)

/-- Value-descending row order of the specification sentence, on rows whose
keeper value is defined. -/
def valRel (a b : KeeperRecord) : Prop := keeperValueD b ≤ keeperValueD a

instance : DecidableRel valRel := fun a b =>
  inferInstanceAs (Decidable (keeperValueD b ≤ keeperValueD a))

/-- Selection described by the specification sentence for the recommendation
selector: "return the top 5 rows by descending keeper_value, ties broken by
original input order (stable sort)" — a stable sort of the rows by descending
keeper value (insertion sort is stable) followed by taking the first five.
Stated with the totalised value `keeperValueD`; the claim's theorem assumes
every row of interest has a defined keeper value, so the totalisation default
plays no role there. -/
def specTop5 (rows : List KeeperRecord) : List KeeperRecord :=
  (List.insertionSort valRel rows).take 5

/-- Case-insensitive substring match of the CLI mutator `update_keeper`:
`player_name.lower() in pick['player_name'].lower()`. -/
def playerMatches (query : String) (p : DraftPick) : Bool :=
  containsStr (pyLower p.player_name) (pyLower query)

/-- Outcome of the CLI command `update_keeper`, reduced to what the command
reports and writes: empty input, no match, an ambiguous set of matches (no
write), or a successful toggle carrying the rewritten draft-results data. -/
inductive UpdateResult where
  | nameRequired : UpdateResult
  | notFound (query : String) : UpdateResult
  | ambiguous (found : List DraftPick) : UpdateResult
  | updated (newData : DraftData) : UpdateResult
deriving DecidableEq

/-- The update loop of `update_keeper`: the first pick with the given player
name and team id gets its keeper status replaced, the loop breaking there;
every other pick is kept unchanged. -/
def flipFirstMatch (name : String) (tid : Nat) (newStatus : Bool) :
    List DraftPick → List DraftPick
  | [] => []
  | p :: rest =>
    if p.player_name == name && p.team_id == tid then
      { p with keeper_status := newStatus } :: rest
    else
      p :: flipFirstMatch name tid newStatus rest

/-- The CLI command `update_keeper` of `src/app.py`: strip the input; an empty
result aborts; zero case-insensitive substring matches report not-found; more
than one match reports the ambiguous set; exactly one match flips that pick's
keeper status and rewrites the whole draft-results data. -/
def update_keeper (data : DraftData) (rawName : String) : UpdateResult :=
  if (pyStrip rawName).isEmpty then .nameRequired
  else
    match data.draft_picks.filter (playerMatches (pyStrip rawName)) with
    | [] => .notFound (pyStrip rawName)
    | [player] =>
        let newPicks :=
          flipFirstMatch player.player_name player.team_id (!player.keeper_status)
            data.draft_picks
        .updated { data with draft_picks := newPicks }
    | ms => .ambiguous ms

/-- The draft-results data on storage after running `update_keeper`: the file
is rewritten in full exactly in the single-match branch and untouched
otherwise. -/
def storedAfter (data : DraftData) (rawName : String) : DraftData :=
  match update_keeper data rawName with
  | .updated newData => newData
  | _ => data

/-- Concrete draft-results data used by the witnesses: two teams and eight
picks exercising every branch of the pipeline (drafted keeper, waiver pickup,
undrafted non-waiver pick, ineligible pick, defaulted eligibility, kicker,
unranked player). -/
def demoData : DraftData :=
  { draft_info := { total_teams := 2, total_rounds := 16, draft_type := "snake" }
    teams := [⟨1, "Team Austin", "Austin"⟩, ⟨2, "Team Blair", "Blair"⟩]
    draft_picks :=
      [⟨"Alice Adams", 1, "Team Austin", some 3, some 25, false, some true, some false⟩,
       ⟨"Bob Brown", 1, "Team Austin", some 8, some 90, true, some true, some true⟩,
       ⟨"Carl Case", 2, "Team Blair", none, none, false, none, none⟩,
       ⟨"Dan Dole", 2, "Team Blair", some 1, some 1, false, some false, some false⟩,
       ⟨"Eve Evans", 1, "Team Austin", some 14, some 160, false, none, some false⟩,
       ⟨"Kick Kicker", 2, "Team Blair", some 16, some 190, false, some true, some false⟩,
       ⟨"Fred Farr", 2, "Team Blair", some 5, some 50, false, some true, some false⟩,
       ⟨"Zed Zilch", 2, "Team Blair", some 15, some 170, false, some true, some false⟩] }

/-- Concrete rankings data matching `demoData` (no row for Zed Zilch). -/
def demoFantasy : List RankingRow :=
  [⟨"Alice Adams", 30, "WR7"⟩,
   ⟨"Bob Brown", 13, "RB4"⟩,
   ⟨"Carl Case", 50, "TE3"⟩,
   ⟨"Dan Dole", 2, "RB1"⟩,
   ⟨"Eve Evans", 12, "QB2"⟩,
   ⟨"Kick Kicker", 150, "K1"⟩,
   ⟨"Fred Farr", 60, "WR12"⟩]

/-- The transform's output on the demo data. -/
def demoDf : List KeeperRecord := create_keeper_analysis_dataframe demoData demoFantasy

/-- Single draft record for the left-join counterexample. -/
def cxPick : DraftRecord :=
  { player_name := "Alice Adams", manager_2024 := "Austin", draft_round_2024 := some 3
    overall_pick_2024 := some 25, keeper_status_2024 := false
    keeper_eligible_2025 := true, waiver_pickup := false }

/-- Rankings source in which the same trimmed player name occurs on two rows
(the second row differs only by surrounding whitespace, which trimming
removes). -/
def cxFantasy : List RankingRow :=
  [⟨"Alice Adams", 30, "WR7"⟩, ⟨" Alice Adams ", 31, "WR8"⟩]

/-- Draft-results source whose single pick has no ranking match: the transform
runs to completion (no read or parse failure) and produces an empty output. -/
def emptyOutData : DraftData :=
  { draft_info := { total_teams := 1, total_rounds := 16, draft_type := "snake" }
    teams := [⟨1, "Team Austin", "Austin"⟩]
    draft_picks := [⟨"Zed Zilch", 1, "Team Austin", some 1, some 1, false, some true, some false⟩] }

/-- Rankings source with no row matching `emptyOutData`'s pick. -/
def emptyOutFantasy : List RankingRow := [⟨"Alice Adams", 30, "WR7"⟩]

/-- The Alice Adams draft pick of `demoData` (its first pick). -/
def alicePick : DraftPick :=
  ⟨"Alice Adams", 1, "Team Austin", some 3, some 25, false, some true, some false⟩

/-- The Alice Adams row of `demoDf` (drafted round 3, ranked 30). -/
def demoAlice : KeeperRecord :=
  ⟨"Alice Adams", "Austin", some 3, some 25, false, true, some 30, some "WR7",
    some 3, some 2, false⟩

/-- The Bob Brown row of `demoDf` (waiver pickup, ranked 13). -/
def demoBob : KeeperRecord :=
  ⟨"Bob Brown", "Austin", some 8, some 90, true, true, some 13, some "RB4",
    some 2, some 5, true⟩

/-- The Fred Farr row of `demoDf` (Blair's only recommendation). -/
def demoFred : KeeperRecord :=
  ⟨"Fred Farr", "Blair", some 5, some 50, false, true, some 60, some "WR12",
    some 5, some 4, false⟩

/-- The Carl Case row of `demoDf` (undrafted non-waiver pick: null keeper
round). -/
def demoCarl : KeeperRecord :=
  ⟨"Carl Case", "Blair", none, none, false, true, some 50, some "TE3",
    some 5, none, false⟩

/-- Every row of the transform's output is an assembled merged row that passed
the position-rank filter and the rank-presence filter. -/
theorem mem_create_shape {data : DraftData} {fantasy : List RankingRow} {r : KeeperRecord}
    (h : r ∈ create_keeper_analysis_dataframe data fantasy) :
    (∃ m : MergedRecord, r = toKeeperRecord m) ∧
      keepPositionRank r.position_rank_2025 = true ∧ r.draft_rank_2025.isSome = true := by
  simp only [create_keeper_analysis_dataframe] at h
  rw [(List.perm_insertionSort rowPickLe _).mem_iff, List.mem_filter] at h
  obtain ⟨h1, hrank⟩ := h
  rw [List.mem_filter] at h1
  obtain ⟨h2, hpos⟩ := h1
  rw [List.mem_map] at h2
  obtain ⟨m, -, hm⟩ := h2
  exact ⟨⟨m, hm.symm⟩, hpos, hrank⟩

/-- C1: for every row of the transform's output, `keeper_round_2025` is derived
by case analysis in priority order: a waiver pickup gives 5 regardless of every
other field; else a present 2024 draft round `d` gives `max 1 (d - 1)`; else
the keeper round is null. -/
theorem keeper_round_case_analysis (data : DraftData) (fantasy : List RankingRow)
    (r : KeeperRecord) (hr : r ∈ create_keeper_analysis_dataframe data fantasy) :
    r.keeper_round_2025 =
      if r.waiver_pickup then some 5
      else
        match r.draft_round_2024 with
        | some d => some (max 1 (d - 1))
        | none => none := by
  obtain ⟨⟨m, rfl⟩, -, -⟩ := mem_create_shape hr
  rfl

/-- Witness for C1 at the waiver-pickup row of the demo data: the waiver case
wins although a 2024 draft round (8) is present. -/
theorem keeper_round_case_analysis_witness :
    demoBob.keeper_round_2025 =
      if demoBob.waiver_pickup then some 5
      else
        match demoBob.draft_round_2024 with
        | some d => some (max 1 (d - 1))
        | none => none :=
  keeper_round_case_analysis demoData demoFantasy demoBob (by decide)

/-- Technical lemma: for a natural number `k`, the rational ceiling of `k / 12`
is the natural-number division `(k + 11) / 12`. -/
theorem ceil_div_twelve (k : ℕ) : ⌈(k : ℚ) / 12⌉ = ((k + 11) / 12 : ℕ) := by
  have hdm := Nat.div_add_mod (k + 11) 12
  have hml : (k + 11) % 12 < 12 := Nat.mod_lt _ (by norm_num)
  generalize hn : (k + 11) / 12 = n at hdm ⊢
  have h1 : 12 * n ≤ k + 11 := by omega
  have h2 : k + 11 < 12 * n + 12 := by omega
  rw [Int.ceil_eq_iff]
  constructor
  · rw [lt_div_iff₀ (by norm_num : (0 : ℚ) < 12)]
    have hc : (12 : ℚ) * (n : ℚ) ≤ (k : ℚ) + 11 := by exact_mod_cast h1
    push_cast
    linarith
  · rw [div_le_iff₀ (by norm_num : (0 : ℚ) < 12)]
    have hk : k ≤ 12 * n := by omega
    have hc : (k : ℚ) ≤ 12 * (n : ℚ) := by exact_mod_cast hk
    push_cast
    linarith

/-- C2: for every row of the transform's output, `projected_round_2025` is the
ceiling of `draft_rank_2025 / 12` when a 2025 rank is present and null
otherwise; in particular rank 13 gives round 2 and rank 12 gives round 1. -/
theorem projected_round_ceil (data : DraftData) (fantasy : List RankingRow)
    (r : KeeperRecord) (hr : r ∈ create_keeper_analysis_dataframe data fantasy) :
    (∀ k : ℕ, r.draft_rank_2025 = some k →
        r.projected_round_2025.map (Nat.cast : ℕ → ℤ) = some ⌈(k : ℚ) / 12⌉) ∧
      (r.draft_rank_2025 = none → r.projected_round_2025 = none) ∧
      (r.draft_rank_2025 = some 13 → r.projected_round_2025 = some 2) ∧
      (r.draft_rank_2025 = some 12 → r.projected_round_2025 = some 1) := by
  obtain ⟨⟨m, rfl⟩, -, -⟩ := mem_create_shape hr
  have hd : (toKeeperRecord m).draft_rank_2025 = m.draft_rank_2025 := rfl
  have hp : (toKeeperRecord m).projected_round_2025 = projectedRound2025 m.draft_rank_2025 := rfl
  rw [hd, hp]
  refine ⟨?_, ?_, ?_, ?_⟩
  · intro k hk
    rw [hk]
    have hv : projectedRound2025 (some k) = some ((k + 11) / 12) := rfl
    rw [hv, ceil_div_twelve]
    rfl
  · intro hk
    rw [hk]
    rfl
  · intro hk
    rw [hk]
    rfl
  · intro hk
    rw [hk]
    rfl

/-- Witness for C2 at the Bob Brown row of the demo data, whose 2025 rank is
13: the projected round is 2. -/
theorem projected_round_ceil_witness :
    (∀ k : ℕ, demoBob.draft_rank_2025 = some k →
        demoBob.projected_round_2025.map (Nat.cast : ℕ → ℤ) = some ⌈(k : ℚ) / 12⌉) ∧
      (demoBob.draft_rank_2025 = none → demoBob.projected_round_2025 = none) ∧
      (demoBob.draft_rank_2025 = some 13 → demoBob.projected_round_2025 = some 2) ∧
      (demoBob.draft_rank_2025 = some 12 → demoBob.projected_round_2025 = some 1) :=
  projected_round_ceil demoData demoFantasy demoBob (by decide)

/-- C5: no row of the transform's output has a position rank beginning with
"K" or "DST", and every row has a present 2025 draft rank. -/
theorem output_excludes_kickers_defenses (data : DraftData) (fantasy : List RankingRow)
    (r : KeeperRecord) (hr : r ∈ create_keeper_analysis_dataframe data fantasy) :
    r.draft_rank_2025.isSome = true ∧
      ∀ s : String, r.position_rank_2025 = some s →
        startsWithStr s "K" = false ∧ startsWithStr s "DST" = false := by
  obtain ⟨-, hpos, hrank⟩ := mem_create_shape hr
  refine ⟨hrank, fun s hs => ?_⟩
  rw [hs] at hpos
  simp only [keepPositionRank, Bool.not_eq_eq_eq_not, Bool.not_true, Bool.or_eq_false_iff] at hpos
  exact hpos

/-- Witness for C5 at the Alice Adams row of the demo data. -/
theorem output_excludes_kickers_defenses_witness :
    demoAlice.draft_rank_2025.isSome = true ∧
      ∀ s : String, demoAlice.position_rank_2025 = some s →
        startsWithStr s "K" = false ∧ startsWithStr s "DST" = false :=
  output_excludes_kickers_defenses demoData demoFantasy demoAlice (by decide)

/-- C6: the `overall_pick` values of the transform's output, read in output
order, are non-decreasing (the output is sorted ascending by 2024 overall
pick; rows with a missing pick are placed last, so the present values are
pairwise non-decreasing). -/
theorem output_sorted_by_overall_pick (data : DraftData) (fantasy : List RankingRow) :
    (create_keeper_analysis_dataframe data fantasy).Pairwise
      (fun a b => ∀ x y : ℕ,
        a.overall_pick_2024 = some x → b.overall_pick_2024 = some y → x ≤ y) := by
  simp only [create_keeper_analysis_dataframe]
  refine (List.sorted_insertionSort rowPickLe _).imp ?_
  intro a b hab x y hx hy
  unfold rowPickLe at hab
  rw [hx, hy] at hab
  exact hab

/-- Under pairwise-distinct trimmed names, at most one ranking row passes the
name-equality filter. -/
theorem filter_key_len_le_one (fantasy : List RankingRow) (c : String) :
    (fantasy.map fun r => pyStrip r.player_name).Nodup →
      (fantasy.filter fun r => pyStrip r.player_name == c).length ≤ 1 := by
  induction fantasy with
  | nil => intro _; simp
  | cons r rest ih =>
      intro hnd
      rw [List.map_cons, List.nodup_cons] at hnd
      obtain ⟨hr, hrest⟩ := hnd
      rw [List.filter_cons]
      by_cases h : (pyStrip r.player_name == c) = true
      · rw [if_pos h]
        have hnil : rest.filter (fun s => pyStrip s.player_name == c) = [] := by
          rw [List.filter_eq_nil_iff]
          intro s hs hc
          apply hr
          rw [List.mem_map]
          refine ⟨s, hs, ?_⟩
          have h1 : pyStrip r.player_name = c := by simpa using h
          have h2 : pyStrip s.player_name = c := by simpa using hc
          exact h2.trans h1.symm
        rw [hnil]
        simp
      · rw [if_neg h]
        exact ih hrest

/-- C4 counterexample: in `cxFantasy` the same trimmed player name occurs on
two rows, and the left join then emits the single draft record `cxPick` twice,
so the pick does not appear at most once in the joined set. -/
theorem left_join_duplicates_counterexample :
    ¬ ((leftJoin [cxPick] cxFantasy).countP (fun m => decide (m.base = cxPick)) ≤ 1) := by
  decide

/-- C4 amended: provided no two ranking rows share the same trimmed player
name, every draft record appears exactly once — in input order — in the joined
set (hence at most once), and a draft record with no matching ranking row
appears with null ranking fields. -/
theorem left_join_unique_names (draft : List DraftRecord) (fantasy : List RankingRow)
    (hnd : (fantasy.map fun r => pyStrip r.player_name).Nodup) :
    (leftJoin draft fantasy).map (fun m => m.base) = draft ∧
      ∀ m ∈ leftJoin draft fantasy, matchesFor fantasy m.base = [] →
        m.draft_rank_2025 = none ∧ m.position_rank_2025 = none := by
  constructor
  · induction draft with
    | nil => rfl
    | cons d rest ih =>
        have hlen : (matchesFor fantasy d).length ≤ 1 :=
          filter_key_len_le_one fantasy (pyStrip d.player_name) hnd
        simp only [leftJoin, List.flatMap_cons, List.map_append] at ih ⊢
        unfold joinOne
        rcases hm : matchesFor fantasy d with - | ⟨x, xs⟩
        · simpa using ih
        · have hxs : xs = [] := by
            rw [hm] at hlen
            cases xs with
            | nil => rfl
            | cons y ys => simp at hlen
          subst hxs
          simpa using ih
  · intro m hm hmm
    rw [leftJoin, List.mem_flatMap] at hm
    obtain ⟨d, -, hmem⟩ := hm
    unfold joinOne at hmem
    rcases hmf : matchesFor fantasy d with - | ⟨x, xs⟩
    · rw [hmf] at hmem
      simp only [List.mem_singleton] at hmem
      subst hmem
      exact ⟨rfl, rfl⟩
    · rw [hmf] at hmem
      simp only [List.mem_map] at hmem
      obtain ⟨r, -, hrm⟩ := hmem
      subst hrm
      simp only at hmm
      rw [hmm] at hmf
      cases hmf

/-- Witness for the amended C4 at the demo rankings (pairwise-distinct trimmed
names) and a single draft record. -/
theorem left_join_unique_names_witness :
    (leftJoin [cxPick] demoFantasy).map (fun m => m.base) = [cxPick] ∧
      ∀ m ∈ leftJoin [cxPick] demoFantasy, matchesFor demoFantasy m.base = [] →
        m.draft_rank_2025 = none ∧ m.position_rank_2025 = none :=
  left_join_unique_names [cxPick] demoFantasy (by decide)

/-- C7 counterexample: on `emptyOutData`, whose single pick has no ranking
match, the transform runs to completion and produces an empty output; the
recommendation selector then reports the data-unavailable failure for the
manager "Austin", although the transform succeeded and the manager merely has
zero eligible rows — the claim instead demands the empty-success result. -/
theorem empty_output_reported_unavailable :
    create_keeper_analysis_dataframe emptyOutData emptyOutFantasy = [] ∧
      api_keeper_recommendations (create_keeper_analysis_dataframe emptyOutData emptyOutFantasy)
        "Austin" = .dataUnavailable ∧
      RecResult.dataUnavailable ≠ .success "Austin" [] := by
  decide

/-- C7 amended: when the selector's input — the transform's output — is
nonempty and the given manager has zero rows with `keeper_eligible_2025` true,
the selector returns an empty recommendations list with the success status,
distinguishable from the data-unavailable failure; a successful transform
whose output is empty is instead reported as data-unavailable (see the
counterexample). -/
theorem empty_manager_success (df : List KeeperRecord) (manager : String)
    (hne : df ≠ []) (helig : eligibleRows df manager = []) :
    api_keeper_recommendations df manager = .success manager [] ∧
      RecResult.success manager [] ≠ .dataUnavailable := by
  have h1 : df.isEmpty = false := by
    cases df with
    | nil => cases hne rfl
    | cons a l => rfl
  constructor
  · simp [api_keeper_recommendations, h1, helig]
  · intro h
    cases h

/-- Witness for the amended C7: the demo output is nonempty and the manager
"Nobody" has no eligible rows, so the selector answers with the empty success
result. -/
theorem empty_manager_success_witness :
    api_keeper_recommendations demoDf "Nobody" = .success "Nobody" [] ∧
      RecResult.success "Nobody" [] ≠ .dataUnavailable :=
  empty_manager_success demoDf "Nobody" (by decide) (by decide)

/-- When the substring filter finds exactly one pick, the update loop of
`update_keeper` rewrites exactly that pick: the loop looks for the first pick
with the matched player's name and team id, and since any pick with that name
would itself pass the substring filter, the first such pick is the matched
pick itself. -/
theorem flip_of_unique_match (picks : List DraftPick) (q : String) (player : DraftPick)
    (s : Bool) (hm : picks.filter (playerMatches q) = [player]) :
    ∃ i, ∃ hi : i < picks.length,
      picks.get ⟨i, hi⟩ = player ∧
      flipFirstMatch player.player_name player.team_id s picks =
        picks.set i { player with keeper_status := s } := by
  induction picks with
  | nil => simp at hm
  | cons p rest ih =>
      rw [List.filter_cons] at hm
      by_cases hp : playerMatches q p = true
      · rw [if_pos hp] at hm
        injection hm with h1 h2
        subst h1
        refine ⟨0, by simp, rfl, ?_⟩
        unfold flipFirstMatch
        rw [if_pos (by simp)]
        rfl
      · rw [if_neg hp] at hm
        obtain ⟨i, hi, hget, hflip⟩ := ih hm
        have hpm : playerMatches q player = true := by
          have hmem : player ∈ rest.filter (playerMatches q) := by
            rw [hm]
            exact List.mem_singleton_self player
          exact (List.mem_filter.mp hmem).2
        have hname : p.player_name ≠ player.player_name := by
          intro he
          apply hp
          unfold playerMatches at hpm ⊢
          rw [he]
          exact hpm
        refine ⟨i + 1, Nat.succ_lt_succ hi, hget, ?_⟩
        unfold flipFirstMatch
        rw [if_neg (by simp [hname])]
        rw [hflip]
        rfl

/-- C8: when `update_keeper` is given a (nonempty, stripped) query whose
case-insensitive substring match finds exactly one pick, the persisted
draft-results data equals the loaded data with only that pick's
`keeper_status` negated: the pick's other fields are kept by the record
update, every other pick is kept by `List.set`, and the teams and draft info
are carried over unchanged; the whole data value is rewritten to storage. -/
theorem update_keeper_single_match_flip (data : DraftData) (q : String) (player : DraftPick)
    (hq : (pyStrip q).isEmpty = false)
    (hm : data.draft_picks.filter (playerMatches (pyStrip q)) = [player]) :
    ∃ i, ∃ hi : i < data.draft_picks.length,
      data.draft_picks.get ⟨i, hi⟩ = player ∧
      update_keeper data q = .updated
        { draft_info := data.draft_info, teams := data.teams,
          draft_picks := data.draft_picks.set i
            { player with keeper_status := !player.keeper_status } } ∧
      storedAfter data q =
        { draft_info := data.draft_info, teams := data.teams,
          draft_picks := data.draft_picks.set i
            { player with keeper_status := !player.keeper_status } } := by
  obtain ⟨i, hi, hget, hflip⟩ :=
    flip_of_unique_match data.draft_picks (pyStrip q) player (!player.keeper_status) hm
  have hupd : update_keeper data q = .updated
      { draft_info := data.draft_info, teams := data.teams,
        draft_picks := data.draft_picks.set i
          { player with keeper_status := !player.keeper_status } } := by
    simp only [update_keeper, hq, Bool.false_eq_true, if_false, hm]
    rw [hflip]
  refine ⟨i, hi, hget, hupd, ?_⟩
  unfold storedAfter
  rw [hupd]

/-- Witness for C8: on the demo data the query "ali" matches exactly the Alice
Adams pick, whose keeper status is flipped in place. -/
theorem update_keeper_single_match_flip_witness :
    ∃ i, ∃ hi : i < demoData.draft_picks.length,
      demoData.draft_picks.get ⟨i, hi⟩ = alicePick ∧
      update_keeper demoData "ali" = .updated
        { draft_info := demoData.draft_info, teams := demoData.teams,
          draft_picks := demoData.draft_picks.set i
            { alicePick with keeper_status := !alicePick.keeper_status } } ∧
      storedAfter demoData "ali" =
        { draft_info := demoData.draft_info, teams := demoData.teams,
          draft_picks := demoData.draft_picks.set i
            { alicePick with keeper_status := !alicePick.keeper_status } } :=
  update_keeper_single_match_flip demoData "ali" alicePick (by decide) (by decide)

/-- C9: a query matching zero picks reports not-found, and a query matching
more than one pick reports the ambiguous set of matches; in both cases the
stored draft-results source is left unchanged. -/
theorem update_keeper_no_mutation (data : DraftData) (q : String)
    (hq : (pyStrip q).isEmpty = false) :
    (data.draft_picks.filter (playerMatches (pyStrip q)) = [] →
        update_keeper data q = .notFound (pyStrip q) ∧ storedAfter data q = data) ∧
      ∀ p₁ p₂ rest, data.draft_picks.filter (playerMatches (pyStrip q)) = p₁ :: p₂ :: rest →
        update_keeper data q = .ambiguous (p₁ :: p₂ :: rest) ∧ storedAfter data q = data := by
  constructor
  · intro hm
    have hupd : update_keeper data q = .notFound (pyStrip q) := by
      simp only [update_keeper, hq, Bool.false_eq_true, if_false, hm]
    refine ⟨hupd, ?_⟩
    unfold storedAfter
    rw [hupd]
  · intro p₁ p₂ rest hm
    have hupd : update_keeper data q = .ambiguous (p₁ :: p₂ :: rest) := by
      simp only [update_keeper, hq, Bool.false_eq_true, if_false, hm]
    refine ⟨hupd, ?_⟩
    unfold storedAfter
    rw [hupd]

/-- Witness for C9: on the demo data the query "xyz" matches no pick and is
reported not-found, and the query "an" matches both Dan Dole and Eve Evans and
is reported as that ambiguous set; neither run changes the stored data. -/
theorem update_keeper_no_mutation_witness :
    (update_keeper demoData "xyz" = .notFound (pyStrip "xyz") ∧
        storedAfter demoData "xyz" = demoData) ∧
      (update_keeper demoData "an" = .ambiguous
          [⟨"Dan Dole", 2, "Team Blair", some 1, some 1, false, some false, some false⟩,
           ⟨"Eve Evans", 1, "Team Austin", some 14, some 160, false, none, some false⟩] ∧
        storedAfter demoData "an" = demoData) :=
  ⟨(update_keeper_no_mutation demoData "xyz" (by decide)).1 (by decide),
   (update_keeper_no_mutation demoData "an" (by decide)).2 _ _ _ (by decide)⟩

/-- Positions along an enumerated list are strictly increasing. -/
theorem pairwise_fst_lt_enumFrom {α : Type} (n : ℕ) (l : List α) :
    (l.enumFrom n).Pairwise (fun p q => p.1 < q.1) := by
  induction l generalizing n with
  | nil => simp
  | cons a l ih =>
      rw [List.enumFrom, List.pairwise_cons]
      refine ⟨?_, ih (n + 1)⟩
      intro q hq
      obtain ⟨i, x⟩ := q
      have hle := (List.mem_enumFrom hq).1
      omega

/-- Inserting a position-decorated row below strictly larger positions agrees,
after forgetting the positions, with inserting the row by the plain
value-descending order: at strictly larger positions the tie-break of `nlRel`
always favours the inserted row, so `nlRel` coincides with `valRel` there. -/
theorem orderedInsert_nlRel_map_snd (S : List (ℕ × KeeperRecord)) (i : ℕ) (a : KeeperRecord)
    (hS : ∀ q ∈ S, i < q.1) :
    (List.orderedInsert nlRel (i, a) S).map Prod.snd =
      List.orderedInsert valRel a (S.map Prod.snd) := by
  induction S with
  | nil => rfl
  | cons q S ih =>
      obtain ⟨j, b⟩ := q
      have hij : i < j := hS (j, b) (List.mem_cons_self _ _)
      have hiff : nlRel (i, a) (j, b) ↔ valRel a b := by
        unfold nlRel valRel
        constructor
        · rintro (h | ⟨h, -⟩)
          · exact le_of_lt h
          · exact le_of_eq h.symm
        · intro h
          rcases lt_or_eq_of_le h with h1 | h1
          · exact Or.inl h1
          · exact Or.inr ⟨h1.symm, le_of_lt hij⟩
      simp only [List.orderedInsert, List.map_cons]
      by_cases h : valRel a b
      · rw [if_pos h, if_pos (hiff.mpr h)]
        rfl
      · rw [if_neg h, if_neg (fun hc => h (hiff.mp hc))]
        simp only [List.map_cons]
        rw [ih (fun q hq => hS q (List.mem_cons_of_mem _ hq))]

/-- Sorting position-decorated rows (positions strictly increasing) by `nlRel`
and forgetting the positions is the same as stable-sorting the plain rows by
the value-descending order. -/
theorem insertionSort_nlRel_map_snd (L : List (ℕ × KeeperRecord))
    (hL : L.Pairwise (fun p q => p.1 < q.1)) :
    (List.insertionSort nlRel L).map Prod.snd =
      List.insertionSort valRel (L.map Prod.snd) := by
  induction L with
  | nil => rfl
  | cons q L ih =>
      obtain ⟨i, a⟩ := q
      rw [List.pairwise_cons] at hL
      obtain ⟨hhead, htail⟩ := hL
      simp only [List.insertionSort, List.map_cons]
      rw [orderedInsert_nlRel_map_snd _ i a
        (fun q hq => hhead q ((List.perm_insertionSort nlRel L).mem_iff.mp hq))]
      rw [ih htail]

/-- When every row has a defined keeper value, the `nlargest` embedding equals
the specification's stable top-five selection: nothing is dropped, and the
position decoration realises exactly the stable tie-break of the plain
value-descending sort. -/
theorem nlargest_eq_specTop5 (rows : List KeeperRecord)
    (hv : ∀ r ∈ rows, (keeper_value r).isSome = true) :
    nlargestByValue 5 rows = specTop5 rows := by
  unfold nlargestByValue specTop5
  have hfil : rows.enum.filter (fun q => (keeper_value q.2).isSome) = rows.enum := by
    rw [List.filter_eq_self]
    intro q hq
    obtain ⟨i, r⟩ := q
    obtain ⟨-, -, hx⟩ := List.mem_enumFrom hq
    exact hv _ (by rw [hx]; exact List.getElem_mem _)
  have hpw : rows.enum.Pairwise (fun p q => p.1 < q.1) := pairwise_fst_lt_enumFrom 0 rows
  rw [hfil, List.map_take, insertionSort_nlRel_map_snd rows.enum hpw, List.enum_map_snd]

/-- C3: when the transform's output is nonempty and every filtered row of the
given manager has a defined keeper value, the recommendation endpoint filters
the rows to that manager's eligible keepers, computes
`keeper_value = projected_round_2025 - keeper_round_2025`, and returns the
top five rows by descending keeper value with ties broken by the rows'
original input order (a stable selection). Rows with an undefined keeper
value are outside this claim's case analysis; they are settled separately
(the selector silently drops them). -/
theorem recommendations_top5_stable (df : List KeeperRecord) (manager : String)
    (hne : df ≠ [])
    (hv : ∀ r ∈ eligibleRows df manager, (keeper_value r).isSome = true) :
    api_keeper_recommendations df manager =
      .success manager (specTop5 (eligibleRows df manager)) := by
  have h1 : df.isEmpty = false := by
    cases df with
    | nil => cases hne rfl
    | cons a l => rfl
  by_cases h2 : eligibleRows df manager = []
  · rw [h2]
    simp [api_keeper_recommendations, h1, h2, specTop5]
  · have h2b : (eligibleRows df manager).isEmpty = false := by
      cases he : eligibleRows df manager with
      | nil => cases h2 he
      | cons a l => rfl
    simp only [api_keeper_recommendations, h1, Bool.false_eq_true, if_false, h2b]
    rw [nlargest_eq_specTop5 _ hv]

/-- Witness for C3 on the demo data: the manager "Austin" has three eligible
rows, all with defined keeper values, and the endpoint returns exactly the
spec's stable top-five selection of them. -/
theorem recommendations_top5_stable_witness :
    api_keeper_recommendations demoDf "Austin" =
      .success "Austin" (specTop5 (eligibleRows demoDf "Austin")) :=
  recommendations_top5_stable demoDf "Austin" (by decide) (by decide)

/-- C10: every row returned by the recommendation selector has a defined
(non-null) `keeper_round_2025` and hence a defined `keeper_value`; an eligible
row of the manager whose keeper value is null (undrafted, non-waiver) is
silently omitted from the recommendations, regardless of how few other
eligible rows exist. -/
theorem recommendations_defined_keeper_round (df : List KeeperRecord) (manager : String)
    (recs : List KeeperRecord)
    (h : api_keeper_recommendations df manager = .success manager recs) :
    (∀ r ∈ recs, r.keeper_round_2025.isSome = true ∧ (keeper_value r).isSome = true) ∧
      ∀ r ∈ eligibleRows df manager, keeper_value r = none → r ∉ recs := by
  have key : ∀ r ∈ recs, (keeper_value r).isSome = true := by
    intro r hr
    simp only [api_keeper_recommendations] at h
    by_cases h1 : df.isEmpty
    · rw [if_pos h1] at h
      cases h
    · rw [if_neg h1] at h
      by_cases h2 : (eligibleRows df manager).isEmpty
      · rw [if_pos h2] at h
        injection h with hmg h3
        rw [← h3] at hr
        cases hr
      · rw [if_neg h2] at h
        injection h with hmg h3
        rw [← h3] at hr
        unfold nlargestByValue at hr
        simp only [List.mem_map] at hr
        obtain ⟨q, hq, rfl⟩ := hr
        have hq2 : q ∈ (eligibleRows df manager).enum.filter
            (fun q => (keeper_value q.2).isSome) :=
          (List.perm_insertionSort nlRel _).mem_iff.mp (List.mem_of_mem_take hq)
        exact (List.mem_filter.mp hq2).2
  constructor
  · intro r hr
    have hv := key r hr
    refine ⟨?_, hv⟩
    cases hk : r.keeper_round_2025 with
    | none =>
        exfalso
        cases hp : r.projected_round_2025 <;> simp [keeper_value, hp, hk] at hv
    | some k => rfl
  · intro r hrel hnone hmem
    have hv := key r hmem
    rw [hnone] at hv
    cases hv

/-- Witness for C10 on the demo data: the manager "Blair" has two eligible
rows; the undrafted non-waiver row (Carl Case, null keeper round) is omitted
and only one recommendation is returned, although fewer than five eligible
rows exist. -/
theorem recommendations_defined_keeper_round_witness :
    (∀ r ∈ [demoFred], r.keeper_round_2025.isSome = true ∧ (keeper_value r).isSome = true) ∧
      ∀ r ∈ eligibleRows demoDf "Blair", keeper_value r = none → r ∉ [demoFred] :=
  recommendations_defined_keeper_round demoDf "Blair" [demoFred] (by decide)

end LolKeepers
